import Mathlib

/-!
# Webhook dispatcher of `data/pocketbase_webhooks.go`

A shallow embedding of the functions `event` and `sendWebhook` and of the types
`Webhook` and `Payload`.  The Go code is effectful: it queries the database,
serialises JSON, talks to an HTTP client and writes log entries.  Here every
library the code calls into is a field of a `World` record (the code under study
is a function of that record), and every effect the code performs is recorded, in
program order, in a list of `Effect`s returned next to the Go return value.

Go strings and byte slices are modelled by `String`.
-/

namespace Webhooks

/-! ## Data model -/

/-- Go `error` values, identified by their message (`err.Error()`). -/
abbrev GoError := String

/-- The struct `Webhook` (source lines 48-55). -/
structure Webhook where
  ID : String
  Name : String
  Collection : String
  Destination : String
  Headers : String
  Active : Bool
deriving DecidableEq, Repr

/-- A value of type `interface{}` as returned by `echo.Context.Get`: the untyped nil of
a key that was never set, a `*models.Record` (possibly a nil pointer), a
`*models.Admin` (possibly a nil pointer), or a value of some other dynamic type. -/
inductive CtxValue (R A : Type) where
  | unset
  | recordPtr (r : Option R)
  | adminPtr (a : Option A)
  | other (typeName : String)

/-- The part of `echo.Context` that `event` reads: the key/value store behind `ctx.Get`. -/
structure Context (R A : Type) where
  Get : String → CtxValue R A

/-- The struct `Payload` (source lines 113-119); the three pointer fields may be nil. -/
structure Payload (R A : Type) where
  Action : String
  Collection : String
  Record : Option R
  Auth : Option R
  Admin : Option A

/-- The type `http.Header` restricted to what `Header.Set` can build: every key holds a
one-element value slice, so the map is an association list from key to that value. -/
abbrev Header := List (String × String)

/-- The fields of `*http.Request` the code determines. -/
structure Request where
  Method : String
  URL : String
  Header : Header
  Body : String
deriving DecidableEq, Repr

/-- The fields of `*http.Response` the code reads; `Body` is what `io.ReadAll(resp.Body)`
yields (the source discards the error of `io.ReadAll`). -/
structure Response where
  StatusCode : Int
  Body : String
deriving DecidableEq, Repr

/-- Levels of the structured logger used by `event`. -/
inductive Level where
  | INFO
  | ERROR
deriving DecidableEq, Repr

/-- One call of `app.Logger().Info` / `.Error`: the message and the key/value arguments. -/
structure LogEntry where
  level : Level
  msg : String
  attrs : List (String × String)
deriving DecidableEq, Repr

/-- How a Go call of result type `error` ends: it returns `nil`, returns an error, or
does not return because of a run-time panic (nil pointer dereference). -/
inductive Ret where
  | nil
  | err (e : GoError)
  | panicked
deriving DecidableEq, Repr

/-- The observable effects of the code, recorded in program order. -/
inductive Effect where
  /-- The `Select().From(webhooksCollection).Where(...).All(&webhooks)` query. -/
  | query (collection : String)
  /-- A call of `json.Marshal(&Payload ...)`. -/
  | marshal
  /-- A call `sendWebhook(ctx, webhook, payload)`. -/
  | send (webhook : Webhook) (payload : String)
  /-- A call `http.DefaultClient.Do(req)`. -/
  | http (req : Request)
  /-- A call of the logger. -/
  | log (entry : LogEntry)
deriving DecidableEq, Repr

/-- Everything outside the repository that `event` and `sendWebhook` call into.

* `table`: the rows of the `webhooks` collection as the query reads them, or the error of
  a failing database;
* `authKey`, `adminKey`: the constants `apis.ContextAuthRecordKey`, `apis.ContextAdminKey`;
* `jsonString`, `jsonRecord`, `jsonAdmin`: what `encoding/json` writes for a Go string, a
  non-nil `*models.Record` (through its `MarshalJSON`) and a non-nil `*models.Admin`;
* `unmarshalHeaders`: `json.Unmarshal` into a `map[string]string`; on success the entries
  of the map in the order in which `range` will visit them (Go leaves it unspecified);
* `canonicalKey`: `textproto.CanonicalMIMEHeaderKey`, applied by `Header.Set`;
* `parsesURL`: whether `http.NewRequestWithContext` accepts the destination (it fails, and
  returns a nil request, exactly when `url.Parse` rejects it: method and context are fine);
* `Do`: `http.DefaultClient.Do`; its first argument counts the calls made so far in this
  dispatch, so that two equal requests may be answered differently. -/
structure World (R A : Type) where
  table : Except GoError (List Webhook)
  authKey : String
  adminKey : String
  jsonString : String → String
  jsonRecord : R → Except GoError String
  jsonAdmin : A → Except GoError String
  unmarshalHeaders : String → Except GoError (List (String × String))
  canonicalKey : String → String
  parsesURL : String → Bool
  Do : Nat → Request → Except GoError Response

variable {R A : Type}

/-! ## Subscription lookup (source lines 125-132) -/

/-- The constant `webhooksCollection`. -/
def webhooksCollection : String := "webhooks"

/-- The condition `dbx.HashExp{"collection": collection, "active": true}`: SQL equality on
both columns (binary, hence case-sensitive, comparison of the text column). -/
def hashExp (collection : String) (row : Webhook) : Bool :=
  row.Collection == collection && row.Active == true

/-- The query `Select().From(webhooksCollection).Where(...).All(&webhooks)`. -/
def findWebhooks (W : World R A) (collection : String) : Except GoError (List Webhook) :=
  match W.table with
  | .error err => .error err
  | .ok rows => .ok (rows.filter (hashExp collection))

/-! ## Payload (source lines 113-119, 122-123, 138-144) -/

/-- The assertion `ctx.Get(apis.ContextAuthRecordKey).(*models.Record)` in its comma-ok form:
the stored pointer when the dynamic type is `*models.Record`, the nil pointer otherwise. -/
def authOf (W : World R A) (ctx : Context R A) : Option R :=
  match ctx.Get W.authKey with
  | .recordPtr r => r
  | _ => none

/-- The assertion `ctx.Get(apis.ContextAdminKey).(*models.Admin)` in its comma-ok form. -/
def adminOf (W : World R A) (ctx : Context R A) : Option A :=
  match ctx.Get W.adminKey with
  | .adminPtr a => a
  | _ => none

/-- The composite literal `&Payload ...` of `event` (source lines 138-144). -/
def buildPayload (W : World R A) (action collection : String) (record : Option R)
    (ctx : Context R A) : Payload R A :=
  { Action := action
    Collection := collection
    Record := record
    Auth := authOf W ctx
    Admin := adminOf W ctx }

/-- The encoding of a `*models.Record` field without `omitempty`: `null` for a nil pointer. -/
def encodeRecordPtr (W : World R A) : Option R → Except GoError String
  | none => .ok "null"
  | some r => W.jsonRecord r

/-- The member of an `omitempty` pointer field: none for a nil pointer. -/
def omitEmpty {α : Type} (key : String) (enc : α → Except GoError String) :
    Option α → Except GoError (List (String × String))
  | none => .ok []
  | some a =>
    match enc a with
    | .error err => .error err
    | .ok v => .ok [(key, v)]

/-- The members `encoding/json` writes for a `Payload`, in field order, following the struct
tags `action`, `collection`, `record`, `auth,omitempty`, `admin,omitempty`; each member is
its key and its encoded value.  The first field that fails to encode fails the whole call. -/
def payloadFields (W : World R A) (p : Payload R A) :
    Except GoError (List (String × String)) :=
  match encodeRecordPtr W p.Record with
  | .error err => .error err
  | .ok rec =>
    match omitEmpty "auth" W.jsonRecord p.Auth with
    | .error err => .error err
    | .ok auth =>
      match omitEmpty "admin" W.jsonAdmin p.Admin with
      | .error err => .error err
      | .ok admin =>
        .ok ([("action", W.jsonString p.Action), ("collection", W.jsonString p.Collection),
              ("record", rec)] ++ auth ++ admin)

/-- The text of a JSON object with the given members. -/
def renderObject (fields : List (String × String)) : String :=
  "\x7b" ++ ",".intercalate (fields.map fun f => "\"" ++ f.1 ++ "\":" ++ f.2) ++ "\x7d"

/-- The call `json.Marshal(&Payload ...)`. -/
def jsonMarshal (W : World R A) (p : Payload R A) : Except GoError String :=
  match payloadFields W p with
  | .error err => .error err
  | .ok fields => .ok (renderObject fields)

/-! ## `sendWebhook` (source lines 160-188) -/

/-- The method `Header.Set(key, value)`: the canonical form of the key now maps to the one
value, whatever it mapped to before. -/
def Header.Set (canon : String → String) (h : Header) (key value : String) : Header :=
  h.filter (fun e => e.1 != canon key) ++ [(canon key, value)]

/-- The call `http.NewRequestWithContext(ctx, http.MethodPost, destination, body)`: the new
request, or the nil request when the destination does not parse. -/
def newRequest (W : World R A) (destination payload : String) : Option Request :=
  if W.parsesURL destination then
    some { Method := "POST", URL := destination, Header := [], Body := payload }
  else
    none

/-- The statement `req.Header.Set(key, value)` on a non-nil request. -/
def Request.setHeader (canon : String → String) (req : Request) (key value : String) : Request :=
  { req with Header := Header.Set canon req.Header key value }

/-- Source lines 165-172: the custom headers are applied when the string is not empty and
decodes; a decoding error is dropped. -/
def addCustomHeaders (W : World R A) (webhook : Webhook) (req : Request) : Request :=
  if webhook.Headers != "" then
    match W.unmarshalHeaders webhook.Headers with
    | .ok headers => headers.foldl (fun r e => r.setHeader W.canonicalKey e.1 e.2) req
    | .error _ => req
  else
    req

/-- The request `sendWebhook` hands to the HTTP client, when there is a request at all
(source lines 161-172). -/
def preparedRequest (W : World R A) (webhook : Webhook) (payload : String) :
    Option Request :=
  match newRequest W webhook.Destination payload with
  | none => none
  | some req =>
    some (addCustomHeaders W webhook
      (req.setHeader W.canonicalKey "Content-Type" "application/json"))

/-- The function `sendWebhook`; `n` is the number of HTTP calls made before this one.  The
error of `http.NewRequestWithContext` is discarded by the source, so on a nil request the
next statement, `req.Header.Set`, dereferences nil and panics. -/
def sendWebhook (W : World R A) (n : Nat) (webhook : Webhook) (payload : String) :
    Ret × List Effect :=
  match preparedRequest W webhook payload with
  | none => (.panicked, [])
  | some req =>
    match W.Do n req with
    | .error err => (.err err, [.http req])
    | .ok resp =>
      if resp.StatusCode < 200 || resp.StatusCode >= 300 then
        (.err ("failed to send webhook: " ++ resp.Body), [.http req])
      else
        (.nil, [.http req])

/-! ## `event` (source lines 121-158) -/

/-- The log call of the `if` branch (source line 151). -/
def errorEntry (action : String) (webhook : Webhook) (err : GoError) : LogEntry :=
  { level := .ERROR
    msg := "failed to send webhook"
    attrs := [("action", action), ("name", webhook.Name), ("collection", webhook.Collection),
              ("destination", webhook.Destination), ("error", err)] }

/-- The log call of the `else` branch (source line 153). -/
def infoEntry (action : String) (webhook : Webhook) : LogEntry :=
  { level := .INFO
    msg := "webhook sent"
    attrs := [("action", action), ("name", webhook.Name), ("collection", webhook.Collection),
              ("destination", webhook.Destination)] }

/-- The loop `for _, webhook := range webhooks` (source lines 149-155) followed by the final
`return nil`; `n` is the number of HTTP calls made before the remaining iterations.  A panic
inside `sendWebhook` unwinds through the loop. -/
def deliver (W : World R A) (action payload : String) :
    Nat → List Webhook → Ret × List Effect
  | _, [] => (.nil, [])
  | n, webhook :: rest =>
    match sendWebhook W n webhook payload with
    | (.panicked, effs) => (.panicked, Effect.send webhook payload :: effs)
    | (.err err, effs) =>
      let r := deliver W action payload (n + 1) rest
      (r.1, Effect.send webhook payload :: effs ++ Effect.log (errorEntry action webhook err) :: r.2)
    | (.nil, effs) =>
      let r := deliver W action payload (n + 1) rest
      (r.1, Effect.send webhook payload :: effs ++ Effect.log (infoEntry action webhook) :: r.2)

/-- The function `event`. -/
def event (W : World R A) (action collection : String) (record : Option R)
    (ctx : Context R A) : Ret × List Effect :=
  match findWebhooks W collection with
  | .error err => (.err err, [.query collection])
  | .ok webhooks =>
    if webhooks.length = 0 then
      (.nil, [.query collection])
    else
      match jsonMarshal W (buildPayload W action collection record ctx) with
      | .error err => (.err err, [.query collection, .marshal])
      | .ok payload =>
        let r := deliver W action payload 0 webhooks
        (r.1, Effect.query collection :: Effect.marshal :: r.2)

/-! ## Projections of an effect list -/

/-- The `sendWebhook` calls of an effect list: webhook and payload bytes, in order. -/
def sendCalls : List Effect → List (Webhook × String)
  | [] => []
  | .send w p :: es => (w, p) :: sendCalls es
  | _ :: es => sendCalls es

/-- The requests handed to the HTTP client, in order. -/
def httpRequests : List Effect → List Request
  | [] => []
  | .http r :: es => r :: httpRequests es
  | _ :: es => httpRequests es

/-- The log entries, in order. -/
def logEntries : List Effect → List LogEntry
  | [] => []
  | .log e :: es => e :: logEntries es
  | _ :: es => logEntries es

/-- The number of `json.Marshal` calls. -/
def marshalCalls : List Effect → Nat
  | [] => 0
  | .marshal :: es => marshalCalls es + 1
  | _ :: es => marshalCalls es

/-- The same world with another behaviour of the HTTP client. -/
def World.withDo (W : World R A) (d : Nat → Request → Except GoError Response) : World R A :=
  { W with Do := d }

/-! ## A concrete world

Records and admins are represented by their JSON text.  The library functions are given
on the inputs the examples use. -/

/-- The header-name bytes accepted by `textproto.CanonicalMIMEHeaderKey` (HTTP token bytes). -/
def validHeaderFieldByte (c : Char) : Bool :=
  c.isAlphanum || "!#$%&*+-.^_|~".data.contains c || c == Char.ofNat 39 || c == Char.ofNat 96

/-- The rewriting loop of `textproto.CanonicalMIMEHeaderKey`: upper case at the start and
after each dash, lower case elsewhere. -/
def canonicalLetters : Bool → List Char → List Char
  | _, [] => []
  | upper, c :: cs =>
    let c1 := if upper && c.isLower then c.toUpper
              else if !upper && c.isUpper then c.toLower else c
    c1 :: canonicalLetters (c1 == '-') cs

/-- A model of `textproto.CanonicalMIMEHeaderKey`: a key with a byte that is not a token
byte is returned unchanged. -/
def canonicalMIMEHeaderKey (s : String) : String :=
  if s.data.all validHeaderFieldByte then String.mk (canonicalLetters true s.data) else s

/-- Two rejections of `url.Parse`: an ASCII control byte anywhere, and a colon in first
position (missing protocol scheme).  Everything else is accepted here. -/
def sampleParsesURL (destination : String) : Bool :=
  !(destination.data.any fun c => c.toNat < 32 || c.toNat == 127) &&
    !(destination.data.head? == some ':')

/-- The decoder of header strings, given on the strings of the examples as
`json.Unmarshal` into a `map[string]string` answers them: two JSON objects of strings
(entries in visiting order); the object with a null value, which Go decodes without error,
the null leaving the empty string as value; the text `not-json`, an error.  No other string
is used; the last branch stands for the errors. -/
def sampleUnmarshal (headers : String) : Except GoError (List (String × String)) :=
  if headers = "\x7b\"X-Token\":\"abc\"\x7d" then .ok [("X-Token", "abc")]
  else if headers = "\x7b\"x-a\":\"1\",\"X-A\":\"2\"\x7d" then .ok [("x-a", "1"), ("X-A", "2")]
  else if headers = "\x7b\"a\":null\x7d" then .ok [("a", "")]
  else .error "json: invalid character in literal null"

/-- An HTTP client that answers by destination: `http://sink/hook` accepts with 200,
`http://sink/fail` answers 500 with body `boom`, everything else is unreachable. -/
def sampleDo (_ : Nat) (req : Request) : Except GoError Response :=
  if req.URL = "http://sink/hook" then .ok { StatusCode := 200, Body := "ok" }
  else if req.URL = "http://sink/fail" then .ok { StatusCode := 500, Body := "boom" }
  else .error "dial tcp: connection refused"

/-- A world with the given stored rows. -/
def sampleWorld (rows : List Webhook) : World String String where
  table := .ok rows
  authKey := "authRecord"
  adminKey := "admin"
  jsonString := fun s => "\"" ++ s ++ "\""
  jsonRecord := fun r => .ok r
  jsonAdmin := fun a => .ok a
  unmarshalHeaders := sampleUnmarshal
  canonicalKey := canonicalMIMEHeaderKey
  parsesURL := sampleParsesURL
  Do := sampleDo

/-- A request context without actor. -/
def noActor : Context String String where
  Get := fun _ => .unset

/-- A request context of an end-user: an auth record and no admin. -/
def userActor : Context String String where
  Get := fun key =>
    if key = "authRecord" then .recordPtr (some "\x7b\"id\":\"u1\"\x7d") else .unset

/-- The record of the examples. -/
def sampleRecord : String := "\x7b\"id\":\"p1\",\"title\":\"Hello\"\x7d"

/-- An active subscription on `posts` without headers. -/
def hookPlain : Webhook :=
  { ID := "w1", Name := "sink", Collection := "posts", Destination := "http://sink/hook",
    Headers := "", Active := true }

/-- An active subscription on `posts` whose destination answers 500. -/
def hookFailing : Webhook :=
  { ID := "w2", Name := "failing", Collection := "posts", Destination := "http://sink/fail",
    Headers := "", Active := true }

/-- An active subscription on `posts` with one custom header. -/
def hookToken : Webhook :=
  { ID := "w3", Name := "token", Collection := "posts", Destination := "http://sink/hook",
    Headers := "\x7b\"X-Token\":\"abc\"\x7d", Active := true }

/-- An active subscription on `posts` whose two header keys differ only in case. -/
def hookCollide : Webhook :=
  { ID := "w4", Name := "collide", Collection := "posts", Destination := "http://sink/hook",
    Headers := "\x7b\"x-a\":\"1\",\"X-A\":\"2\"\x7d", Active := true }

/-- An active subscription on `posts` with malformed headers. -/
def hookNotJson : Webhook :=
  { ID := "w5", Name := "lenient", Collection := "posts", Destination := "http://sink/hook",
    Headers := "not-json", Active := true }

/-- An active subscription on `posts` whose headers are an object with a null value. -/
def hookNullValue : Webhook :=
  { ID := "w9", Name := "null", Collection := "posts", Destination := "http://sink/hook",
    Headers := "\x7b\"a\":null\x7d", Active := true }

/-- An active subscription on `posts` whose destination does not parse as a URL. -/
def hookBadURL : Webhook :=
  { ID := "w6", Name := "bad", Collection := "posts", Destination := "://",
    Headers := "", Active := true }

/-- An inactive subscription on `posts`. -/
def hookInactive : Webhook :=
  { ID := "w7", Name := "off", Collection := "posts", Destination := "http://sink/hook",
    Headers := "", Active := false }

/-- The serialised payload of a `create` on `posts` of `sampleRecord` without actor. -/
def samplePayload : String :=
  "\x7b\"action\":\"create\",\"collection\":\"posts\",\"record\":" ++ sampleRecord ++ "\x7d"

/-- A world whose records do not serialise. -/
def unserialisableWorld (rows : List Webhook) : World String String :=
  { sampleWorld rows with jsonRecord := fun _ => .error "json: unsupported value" }

/-- A world in which `range` visits the entries of every decoded header map in the
opposite order. -/
def reversedWorld (rows : List Webhook) : World String String :=
  { sampleWorld rows with
    unmarshalHeaders := fun headers =>
      match sampleUnmarshal headers with
      | .ok entries => .ok entries.reverse
      | .error err => .error err }

/-! ## Lemmas on the effect projections -/

theorem sendCalls_append (xs ys : List Effect) :
    sendCalls (xs ++ ys) = sendCalls xs ++ sendCalls ys := by
  induction xs with
  | nil => rfl
  | cons x xs ih => cases x <;> simp [sendCalls, ih]

theorem httpRequests_append (xs ys : List Effect) :
    httpRequests (xs ++ ys) = httpRequests xs ++ httpRequests ys := by
  induction xs with
  | nil => rfl
  | cons x xs ih => cases x <;> simp [httpRequests, ih]

theorem logEntries_append (xs ys : List Effect) :
    logEntries (xs ++ ys) = logEntries xs ++ logEntries ys := by
  induction xs with
  | nil => rfl
  | cons x xs ih => cases x <;> simp [logEntries, ih]

theorem marshalCalls_append (xs ys : List Effect) :
    marshalCalls (xs ++ ys) = marshalCalls xs + marshalCalls ys := by
  induction xs with
  | nil => simp [marshalCalls]
  | cons x xs ih =>
    cases x
    all_goals simp [marshalCalls, ih]
    omega

/-! ## Lemmas on `sendWebhook` -/

/-- A destination that parses yields a request. -/
theorem preparedRequest_of_parses (W : World R A) (w : Webhook) (payload : String)
    (h : W.parsesURL w.Destination = true) :
    preparedRequest W w payload =
      some (addCustomHeaders W w
        (Request.setHeader W.canonicalKey
          { Method := "POST", URL := w.Destination, Header := [], Body := payload }
          "Content-Type" "application/json")) := by
  simp [preparedRequest, newRequest, h]

/-- A destination that does not parse yields the nil request. -/
theorem preparedRequest_of_not_parses (W : World R A) (w : Webhook) (payload : String)
    (h : W.parsesURL w.Destination = false) :
    preparedRequest W w payload = none := by
  simp [preparedRequest, newRequest, h]

/-- With a request at hand `sendWebhook` makes one HTTP call and returns. -/
theorem sendWebhook_of_request (W : World R A) (n : Nat) (w : Webhook) (payload : String)
    (req : Request) (h : preparedRequest W w payload = some req) :
    (sendWebhook W n w payload).2 = [.http req] ∧
      ((sendWebhook W n w payload).1 = .nil ∨ ∃ e, (sendWebhook W n w payload).1 = .err e) := by
  unfold sendWebhook
  rw [h]
  cases hdo : W.Do n req with
  | error err => simp [hdo]
  | ok resp =>
    by_cases hs : resp.StatusCode < 200 ∨ resp.StatusCode ≥ 300
    · simp [hdo, hs]
    · simp [hdo, hs]

/-- On the nil request `sendWebhook` panics before any HTTP call. -/
theorem sendWebhook_of_not_parses (W : World R A) (n : Nat) (w : Webhook) (payload : String)
    (h : W.parsesURL w.Destination = false) :
    sendWebhook W n w payload = (.panicked, []) := by
  simp [sendWebhook, preparedRequest_of_not_parses W w payload h]

/-! ## Lemmas on the delivery loop -/

theorem deliver_cons_nil (W : World R A) (action payload : String) (n : Nat) (w : Webhook)
    (rest : List Webhook) (effs : List Effect) (h : sendWebhook W n w payload = (.nil, effs)) :
    deliver W action payload n (w :: rest) =
      ((deliver W action payload (n + 1) rest).1,
        Effect.send w payload :: effs ++
          Effect.log (infoEntry action w) :: (deliver W action payload (n + 1) rest).2) := by
  simp [deliver, h]

theorem deliver_cons_err (W : World R A) (action payload : String) (n : Nat) (w : Webhook)
    (rest : List Webhook) (e : GoError) (effs : List Effect)
    (h : sendWebhook W n w payload = (.err e, effs)) :
    deliver W action payload n (w :: rest) =
      ((deliver W action payload (n + 1) rest).1,
        Effect.send w payload :: effs ++
          Effect.log (errorEntry action w e) :: (deliver W action payload (n + 1) rest).2) := by
  simp [deliver, h]

theorem deliver_cons_panicked (W : World R A) (action payload : String) (n : Nat) (w : Webhook)
    (rest : List Webhook) (effs : List Effect)
    (h : sendWebhook W n w payload = (.panicked, effs)) :
    deliver W action payload n (w :: rest) = (.panicked, Effect.send w payload :: effs) := by
  simp [deliver, h]

/-- One iteration of the loop on a webhook whose request exists: the call, the HTTP
request, one log entry, then the remaining iterations. -/
theorem deliver_cons_of_request (W : World R A) (action payload : String) (n : Nat)
    (w : Webhook) (rest : List Webhook) (req : Request)
    (h : preparedRequest W w payload = some req) :
    ∃ entry,
      (((sendWebhook W n w payload).1 = .nil ∧ entry = infoEntry action w) ∨
        (∃ e, (sendWebhook W n w payload).1 = .err e ∧ entry = errorEntry action w e)) ∧
      deliver W action payload n (w :: rest) =
        ((deliver W action payload (n + 1) rest).1,
          Effect.send w payload :: Effect.http req ::
            Effect.log entry :: (deliver W action payload (n + 1) rest).2) := by
  obtain ⟨heff, hret⟩ := sendWebhook_of_request W n w payload req h
  rcases hret with hnil | ⟨e, herr⟩
  · refine ⟨infoEntry action w, Or.inl ⟨hnil, rfl⟩, ?_⟩
    have hs : sendWebhook W n w payload = (.nil, [.http req]) := Prod.ext hnil heff
    rw [deliver_cons_nil W action payload n w rest _ hs]
    rfl
  · refine ⟨errorEntry action w e, Or.inr ⟨e, herr, rfl⟩, ?_⟩
    have hs : sendWebhook W n w payload = (.err e, [.http req]) := Prod.ext herr heff
    rw [deliver_cons_err W action payload n w rest e _ hs]
    rfl

/-- When every request can be built the loop runs to its end: it returns nil, calls
`sendWebhook` once per webhook in list order with the one payload, hands one request per
webhook to the HTTP client, and serialises nothing. -/
theorem deliver_of_parses (W : World R A) (action payload : String) :
    ∀ (ws : List Webhook) (n : Nat), (∀ w ∈ ws, W.parsesURL w.Destination = true) →
      (deliver W action payload n ws).1 = .nil ∧
      sendCalls (deliver W action payload n ws).2 = ws.map (fun w => (w, payload)) ∧
      httpRequests (deliver W action payload n ws).2 =
        ws.filterMap (fun w => preparedRequest W w payload) ∧
      marshalCalls (deliver W action payload n ws).2 = 0 ∧
      (logEntries (deliver W action payload n ws).2).length = ws.length := by
  intro ws
  induction ws with
  | nil => intro n _; simp [deliver, sendCalls, httpRequests, marshalCalls, logEntries]
  | cons w rest ih =>
    intro n h
    have hw : W.parsesURL w.Destination = true := h w (List.mem_cons_self _ _)
    have hrest : ∀ x ∈ rest, W.parsesURL x.Destination = true :=
      fun x hx => h x (List.mem_cons_of_mem _ hx)
    have hreq := preparedRequest_of_parses W w payload hw
    obtain ⟨entry, _, hd⟩ := deliver_cons_of_request W action payload n w rest _ hreq
    obtain ⟨i1, i2, i3, i4, i5⟩ := ih (n + 1) hrest
    rw [hd]
    simp [sendCalls, httpRequests, marshalCalls, logEntries, i1, i2, i3, i4, i5, hreq]

/-- The log entry of the attempt at position `i`, when every request can be built. -/
theorem deliver_log_at (W : World R A) (action payload : String) :
    ∀ (ws : List Webhook) (n : Nat), (∀ w ∈ ws, W.parsesURL w.Destination = true) →
      ∀ (i : Nat) (w : Webhook), ws[i]? = some w →
        ((sendWebhook W (n + i) w payload).1 = .nil →
          (logEntries (deliver W action payload n ws).2)[i]? = some (infoEntry action w)) ∧
        (∀ e, (sendWebhook W (n + i) w payload).1 = .err e →
          (logEntries (deliver W action payload n ws).2)[i]? =
            some (errorEntry action w e)) := by
  intro ws
  induction ws with
  | nil => intro n _ i w hi; simp at hi
  | cons w0 rest ih =>
    intro n h i w hi
    have hw : W.parsesURL w0.Destination = true := h w0 (List.mem_cons_self _ _)
    have hrest : ∀ x ∈ rest, W.parsesURL x.Destination = true :=
      fun x hx => h x (List.mem_cons_of_mem _ hx)
    have hreq := preparedRequest_of_parses W w0 payload hw
    obtain ⟨entry, hentry, hd⟩ := deliver_cons_of_request W action payload n w0 rest _ hreq
    rw [hd]
    cases i with
    | zero =>
      simp at hi
      subst hi
      simp only [Nat.add_zero, logEntries, List.getElem?_cons_zero]
      rcases hentry with ⟨hnil, he⟩ | ⟨e0, herr, he⟩
      · subst he
        refine ⟨fun _ => rfl, fun e h2 => ?_⟩
        rw [hnil] at h2
        cases h2
      · subst he
        refine ⟨fun h2 => ?_, fun e h2 => ?_⟩
        · rw [herr] at h2
          cases h2
        · rw [herr] at h2
          cases h2
          rfl
    | succ j =>
      simp at hi
      have := ih (n + 1) hrest j w hi
      simp only [logEntries, List.getElem?_cons_succ]
      have hidx : n + (j + 1) = n + 1 + j := by omega
      rw [hidx]
      exact this

/-- The effects of `sendWebhook` itself hold no call, no log entry and no serialisation. -/
theorem sendWebhook_effects_plain (W : World R A) (n : Nat) (w : Webhook) (payload : String) :
    sendCalls (sendWebhook W n w payload).2 = [] ∧
      logEntries (sendWebhook W n w payload).2 = [] ∧
      marshalCalls (sendWebhook W n w payload).2 = 0 := by
  cases hp : W.parsesURL w.Destination with
  | false =>
    rw [sendWebhook_of_not_parses W n w payload hp]
    simp [sendCalls, logEntries, marshalCalls]
  | true =>
    obtain ⟨heff, _⟩ :=
      sendWebhook_of_request W n w payload _ (preparedRequest_of_parses W w payload hp)
    rw [heff]
    simp [sendCalls, logEntries, marshalCalls]

/-- Whatever happens inside the loop, every `sendWebhook` call is for a webhook of the list
and carries the one payload. -/
theorem deliver_sendCalls_mem (W : World R A) (action payload : String) :
    ∀ (ws : List Webhook) (n : Nat) (x : Webhook × String),
      x ∈ sendCalls (deliver W action payload n ws).2 → x.1 ∈ ws ∧ x.2 = payload := by
  intro ws
  induction ws with
  | nil => intro n x hx; simp [deliver, sendCalls] at hx
  | cons w rest ih =>
    intro n x hx
    obtain ⟨hsc, _, _⟩ := sendWebhook_effects_plain W n w payload
    have key : x = (w, payload) ∨ x ∈ sendCalls (deliver W action payload (n + 1) rest).2 := by
      rcases hs : sendWebhook W n w payload with ⟨r, effs⟩
      rw [hs] at hsc
      cases r with
      | nil =>
        rw [deliver_cons_nil W action payload n w rest effs hs] at hx
        simpa [sendCalls, sendCalls_append, hsc] using hx
      | err e =>
        rw [deliver_cons_err W action payload n w rest e effs hs] at hx
        simpa [sendCalls, sendCalls_append, hsc] using hx
      | panicked =>
        rw [deliver_cons_panicked W action payload n w rest effs hs] at hx
        left
        simpa [sendCalls, hsc] using hx
    rcases key with rfl | hmem
    · exact ⟨List.mem_cons_self _ _, rfl⟩
    · obtain ⟨h1, h2⟩ := ih (n + 1) x hmem
      exact ⟨List.mem_cons_of_mem _ h1, h2⟩

/-- The loop itself never returns an error: it ends with `return nil` or it panics. -/
theorem deliver_never_err (W : World R A) (action payload : String) :
    ∀ (ws : List Webhook) (n : Nat) (e : GoError),
      (deliver W action payload n ws).1 ≠ .err e := by
  intro ws
  induction ws with
  | nil => intro n e h; simp [deliver] at h
  | cons w rest ih =>
    intro n e h
    rcases hs : sendWebhook W n w payload with ⟨r, effs⟩
    cases r with
    | nil =>
      rw [deliver_cons_nil W action payload n w rest effs hs] at h
      exact ih (n + 1) e h
    | err e0 =>
      rw [deliver_cons_err W action payload n w rest e0 effs hs] at h
      exact ih (n + 1) e h
    | panicked =>
      rw [deliver_cons_panicked W action payload n w rest effs hs] at h
      cases h

/-! ## Lemmas on `event`: one per path through the function -/

theorem event_of_lookup_error (W : World R A) (action collection : String)
    (record : Option R) (ctx : Context R A) (e : GoError)
    (h : findWebhooks W collection = .error e) :
    event W action collection record ctx = (.err e, [.query collection]) := by
  simp [event, h]

theorem event_of_empty (W : World R A) (action collection : String)
    (record : Option R) (ctx : Context R A) (h : findWebhooks W collection = .ok []) :
    event W action collection record ctx = (.nil, [.query collection]) := by
  simp [event, h]

theorem event_of_marshal_error (W : World R A) (action collection : String)
    (record : Option R) (ctx : Context R A) (ws : List Webhook) (e : GoError)
    (h : findWebhooks W collection = .ok ws) (hne : ws ≠ [])
    (hm : jsonMarshal W (buildPayload W action collection record ctx) = .error e) :
    event W action collection record ctx = (.err e, [.query collection, .marshal]) := by
  simp [event, h, hm, hne]

theorem event_of_payload (W : World R A) (action collection : String)
    (record : Option R) (ctx : Context R A) (ws : List Webhook) (payload : String)
    (h : findWebhooks W collection = .ok ws) (hne : ws ≠ [])
    (hm : jsonMarshal W (buildPayload W action collection record ctx) = .ok payload) :
    event W action collection record ctx =
      ((deliver W action payload 0 ws).1,
        Effect.query collection :: Effect.marshal :: (deliver W action payload 0 ws).2) := by
  simp [event, h, hm, hne]

/-- One request per webhook when every destination parses. -/
theorem preparedRequests_length (W : World R A) (payload : String) :
    ∀ ws : List Webhook, (∀ w ∈ ws, W.parsesURL w.Destination = true) →
      (ws.filterMap (fun w => preparedRequest W w payload)).length = ws.length := by
  intro ws
  induction ws with
  | nil => intro _; rfl
  | cons w rest ih =>
    intro h
    have hw := preparedRequest_of_parses W w payload (h w (List.mem_cons_self _ _))
    rw [List.filterMap_cons, hw]
    simp [ih (fun x hx => h x (List.mem_cons_of_mem _ hx))]

/-! ## The claims about `event` -/

/-- C1: `event` returns a non-nil error exactly when the subscription lookup fails or the
payload serialisation it performs fails, and the error it returns is that failure; this holds
in every world.  Once lookup and serialisation have succeeded, `event` returns nil whatever
the HTTP client `W.Do` answers, for deliveries that end in success, transport error or
non-2xx response, which is the case when each matched destination yields a request. -/
theorem event_returns_error_iff (W : World R A) (action collection : String)
    (record : Option R) (ctx : Context R A) :
    ((∃ e, (event W action collection record ctx).1 = .err e) ↔
      ((∃ e, findWebhooks W collection = .error e) ∨
        (0 < marshalCalls (event W action collection record ctx).2 ∧
          ∃ e, jsonMarshal W (buildPayload W action collection record ctx) = .error e))) ∧
    (∀ e, (event W action collection record ctx).1 = .err e →
      findWebhooks W collection = .error e ∨
        jsonMarshal W (buildPayload W action collection record ctx) = .error e) ∧
    (∀ ws payload, findWebhooks W collection = .ok ws →
      jsonMarshal W (buildPayload W action collection record ctx) = .ok payload →
      (∀ w ∈ ws, W.parsesURL w.Destination = true) →
      (event W action collection record ctx).1 = .nil) := by
  cases hf : findWebhooks W collection with
  | error e0 =>
    rw [event_of_lookup_error W action collection record ctx e0 hf]
    refine ⟨⟨fun _ => Or.inl ⟨e0, rfl⟩, fun _ => ⟨e0, rfl⟩⟩, ?_, ?_⟩
    · intro e he
      cases he
      exact Or.inl rfl
    · intro ws payload h
      cases h
  | ok ws =>
    by_cases hne : ws = []
    · subst hne
      rw [event_of_empty W action collection record ctx hf]
      refine ⟨⟨?_, ?_⟩, ?_, fun _ _ _ _ _ => rfl⟩
      · rintro ⟨e, he⟩
        cases he
      · rintro (⟨e, he⟩ | ⟨hm, _⟩)
        · cases he
        · simp [marshalCalls] at hm
      · intro e he
        cases he
    · cases hm : jsonMarshal W (buildPayload W action collection record ctx) with
      | error e0 =>
        rw [event_of_marshal_error W action collection record ctx ws e0 hf hne hm]
        refine ⟨⟨fun _ => Or.inr ⟨by simp [marshalCalls], e0, rfl⟩, fun _ => ⟨e0, rfl⟩⟩,
          ?_, ?_⟩
        · intro e he
          cases he
          exact Or.inr rfl
        · intro ws2 payload _ h
          cases h
      | ok payload =>
        rw [event_of_payload W action collection record ctx ws payload hf hne hm]
        have hnoerr : ∀ (e : GoError) (effs : List Effect),
            ((deliver W action payload 0 ws).1, effs).1 ≠ .err e :=
          fun e _ => deliver_never_err W action payload ws 0 e
        refine ⟨⟨?_, ?_⟩, ?_, ?_⟩
        · rintro ⟨e, he⟩
          exact absurd he (hnoerr e _)
        · rintro (⟨e, he⟩ | ⟨_, e, he⟩)
          · cases he
          · cases he
        · intro e he
          exact absurd he (hnoerr e _)
        · intro ws2 p2 h1 _ hurl
          cases h1
          exact (deliver_of_parses W action payload ws 0 hurl).1

/-- C1 at two subscriptions of which one answers 500: the dispatch returns nil. -/
theorem event_returns_error_iff_witness :
    findWebhooks (sampleWorld [hookPlain, hookFailing]) "posts" =
        .ok [hookPlain, hookFailing] ∧
      jsonMarshal (sampleWorld [hookPlain, hookFailing])
        (buildPayload (sampleWorld [hookPlain, hookFailing]) "create" "posts"
          (some sampleRecord) noActor) = .ok samplePayload ∧
      (∀ w ∈ [hookPlain, hookFailing],
        (sampleWorld [hookPlain, hookFailing]).parsesURL w.Destination = true) ∧
      (event (sampleWorld [hookPlain, hookFailing]) "create" "posts" (some sampleRecord)
        noActor).1 = .nil :=
  ⟨rfl, rfl, by decide,
    (event_returns_error_iff (sampleWorld [hookPlain, hookFailing]) "create" "posts"
      (some sampleRecord) noActor).2.2 [hookPlain, hookFailing] samplePayload
      rfl rfl (by decide)⟩

/-- C2: when the lookup returns the non-empty list `ws` and the payload serialises to
`payload`, then for every behaviour `d` of the HTTP client (every assignment of successes,
transport errors and non-2xx responses; each matched destination yields a request) `event`
calls `sendWebhook` exactly once per webhook of `ws`, duplicates included, in list order,
each time with the bytes `payload`, which were serialised once; and the request handed to the
client for a webhook is the one `sendWebhook` prepares for it alone, the same under every
`d`, so a failed delivery removes or alters no other attempt. -/
theorem event_sends_to_every_webhook (W : World R A) (action collection : String)
    (record : Option R) (ctx : Context R A) (ws : List Webhook) (payload : String)
    (hfind : findWebhooks W collection = .ok ws) (hne : ws ≠ [])
    (hpay : jsonMarshal W (buildPayload W action collection record ctx) = .ok payload)
    (hurl : ∀ w ∈ ws, W.parsesURL w.Destination = true)
    (d : Nat → Request → Except GoError Response) :
    sendCalls (event (W.withDo d) action collection record ctx).2 =
        ws.map (fun w => (w, payload)) ∧
      httpRequests (event (W.withDo d) action collection record ctx).2 =
        ws.filterMap (fun w => preparedRequest W w payload) ∧
      (httpRequests (event (W.withDo d) action collection record ctx).2).length = ws.length ∧
      marshalCalls (event (W.withDo d) action collection record ctx).2 = 1 := by
  have hfind2 : findWebhooks (W.withDo d) collection = .ok ws := hfind
  have hpay2 : jsonMarshal (W.withDo d)
      (buildPayload (W.withDo d) action collection record ctx) = .ok payload := hpay
  have hurl2 : ∀ w ∈ ws, (W.withDo d).parsesURL w.Destination = true := hurl
  rw [event_of_payload (W.withDo d) action collection record ctx ws payload hfind2 hne hpay2]
  obtain ⟨_, h2, h3, h4, _⟩ := deliver_of_parses (W.withDo d) action payload ws 0 hurl2
  have h3b : httpRequests (deliver (W.withDo d) action payload 0 ws).2 =
      ws.filterMap (fun w => preparedRequest W w payload) := h3
  have hlen := preparedRequests_length W payload ws hurl
  refine ⟨?_, ?_, ?_, ?_⟩
  · simpa [sendCalls] using h2
  · simpa [httpRequests] using h3b
  · simp only [httpRequests]
    rw [h3b]
    exact hlen
  · simp [marshalCalls, h4]

/-- C2 at a 500 answer followed by two accepting subscriptions, one of them a duplicate,
under a client that refuses every connection. -/
theorem event_sends_to_every_webhook_witness :
    findWebhooks (sampleWorld [hookFailing, hookPlain, hookPlain]) "posts" =
        .ok [hookFailing, hookPlain, hookPlain] ∧
      [hookFailing, hookPlain, hookPlain] ≠ [] ∧
      jsonMarshal (sampleWorld [hookFailing, hookPlain, hookPlain])
        (buildPayload (sampleWorld [hookFailing, hookPlain, hookPlain]) "create" "posts"
          (some sampleRecord) noActor) = .ok samplePayload ∧
      (∀ w ∈ [hookFailing, hookPlain, hookPlain],
        (sampleWorld [hookFailing, hookPlain, hookPlain]).parsesURL w.Destination = true) ∧
      sendCalls (event ((sampleWorld [hookFailing, hookPlain, hookPlain]).withDo
          (fun _ _ => .error "connection refused")) "create" "posts" (some sampleRecord)
          noActor).2 =
        [(hookFailing, samplePayload), (hookPlain, samplePayload), (hookPlain, samplePayload)] :=
  ⟨rfl, by decide, rfl, by decide,
    (event_sends_to_every_webhook (sampleWorld [hookFailing, hookPlain, hookPlain]) "create"
      "posts" (some sampleRecord) noActor [hookFailing, hookPlain, hookPlain] samplePayload
      rfl (by decide) rfl (by decide) (fun _ _ => .error "connection refused")).1⟩

/-- C5: when the lookup succeeds with an empty result `event` returns nil, serialises no
payload, calls `sendWebhook` for nobody and issues no HTTP request: its only effect is the
query. -/
theorem event_without_subscribers (W : World R A) (action collection : String)
    (record : Option R) (ctx : Context R A) (h : findWebhooks W collection = .ok []) :
    (event W action collection record ctx).1 = .nil ∧
      marshalCalls (event W action collection record ctx).2 = 0 ∧
      httpRequests (event W action collection record ctx).2 = [] ∧
      sendCalls (event W action collection record ctx).2 = [] ∧
      (event W action collection record ctx).2 = [.query collection] := by
  rw [event_of_empty W action collection record ctx h]
  simp [marshalCalls, httpRequests, sendCalls]

/-- C5 at an event on `comments` while the only active subscriptions are on `posts`, in a
world whose records would not even serialise. -/
theorem event_without_subscribers_witness :
    findWebhooks (unserialisableWorld [hookPlain, hookInactive]) "comments" = .ok [] ∧
      (event (unserialisableWorld [hookPlain, hookInactive]) "create" "comments"
        (some sampleRecord) noActor).1 = .nil ∧
      marshalCalls (event (unserialisableWorld [hookPlain, hookInactive]) "create" "comments"
        (some sampleRecord) noActor).2 = 0 ∧
      httpRequests (event (unserialisableWorld [hookPlain, hookInactive]) "create" "comments"
        (some sampleRecord) noActor).2 = [] :=
  ⟨rfl,
    (event_without_subscribers (unserialisableWorld [hookPlain, hookInactive]) "create"
      "comments" (some sampleRecord) noActor rfl).1,
    (event_without_subscribers (unserialisableWorld [hookPlain, hookInactive]) "create"
      "comments" (some sampleRecord) noActor rfl).2.1,
    (event_without_subscribers (unserialisableWorld [hookPlain, hookInactive]) "create"
      "comments" (some sampleRecord) noActor rfl).2.2.1⟩

/-- Whatever the destinations are, the loop writes one log entry per request it hands to the
HTTP client: an attempt is logged exactly when its `sendWebhook` call returned. -/
theorem deliver_logs_match_requests (W : World R A) (action payload : String) :
    ∀ (ws : List Webhook) (n : Nat),
      (logEntries (deliver W action payload n ws).2).length =
        (httpRequests (deliver W action payload n ws).2).length := by
  intro ws
  induction ws with
  | nil => intro n; simp [deliver, logEntries, httpRequests]
  | cons w rest ih =>
    intro n
    cases hp : W.parsesURL w.Destination with
    | false =>
      rw [deliver_cons_panicked W action payload n w rest []
        (sendWebhook_of_not_parses W n w payload hp)]
      simp [logEntries, httpRequests]
    | true =>
      obtain ⟨entry, _, hd⟩ := deliver_cons_of_request W action payload n w rest _
        (preparedRequest_of_parses W w payload hp)
      rw [hd]
      simp [logEntries, httpRequests, ih (n + 1)]

/-- In a dispatch that reaches the delivery loop and in which each matched destination
yields a request, the attempts are the webhooks of `ws` in order, there are as many log
entries as attempts, and the entry at position `i` belongs to the attempt at position `i`:
the INFO entry `webhook sent` when `sendWebhook` returned nil, the ERROR entry
`failed to send webhook` with the message of the error when it returned an error; both carry
the event action and the name, collection and destination of that webhook. -/
theorem event_logs_of_returning_attempts (W : World R A) (action collection : String)
    (record : Option R) (ctx : Context R A) (ws : List Webhook) (payload : String)
    (hfind : findWebhooks W collection = .ok ws) (hne : ws ≠ [])
    (hpay : jsonMarshal W (buildPayload W action collection record ctx) = .ok payload)
    (hurl : ∀ w ∈ ws, W.parsesURL w.Destination = true) :
    sendCalls (event W action collection record ctx).2 = ws.map (fun w => (w, payload)) ∧
    (logEntries (event W action collection record ctx).2).length = ws.length ∧
    ∀ (i : Nat) (w : Webhook), ws[i]? = some w →
      ((sendWebhook W i w payload).1 = .nil ∨ ∃ e, (sendWebhook W i w payload).1 = .err e) ∧
      ((sendWebhook W i w payload).1 = .nil →
        (logEntries (event W action collection record ctx).2)[i]? =
          some { level := .INFO, msg := "webhook sent",
                 attrs := [("action", action), ("name", w.Name),
                   ("collection", w.Collection), ("destination", w.Destination)] }) ∧
      (∀ e, (sendWebhook W i w payload).1 = .err e →
        (logEntries (event W action collection record ctx).2)[i]? =
          some { level := .ERROR, msg := "failed to send webhook",
                 attrs := [("action", action), ("name", w.Name),
                   ("collection", w.Collection), ("destination", w.Destination),
                   ("error", e)] }) := by
  rw [event_of_payload W action collection record ctx ws payload hfind hne hpay]
  obtain ⟨_, h2, _, _, h5⟩ := deliver_of_parses W action payload ws 0 hurl
  refine ⟨by simpa [sendCalls] using h2, by simpa [logEntries] using h5, ?_⟩
  intro i w hi
  have hw : W.parsesURL w.Destination = true := hurl w (List.getElem?_mem hi)
  obtain ⟨_, hret⟩ :=
    sendWebhook_of_request W i w payload _ (preparedRequest_of_parses W w payload hw)
  have hlog := deliver_log_at W action payload ws 0 hurl i w hi
  rw [Nat.zero_add] at hlog
  exact ⟨hret, hlog.1, hlog.2⟩

/-- C9, evaluated at three matching subscriptions of which the second has a destination
that `url.Parse` rejects: the dispatch reaches the delivery loop and calls `sendWebhook`
twice, for `hookPlain` and for `hookBadURL`; the first attempt gets its INFO entry, the
second gets no log entry at all, neither INFO nor ERROR, because `sendWebhook` panics on the
nil request and the panic leaves `event`; `hookFailing` is never attempted. -/
theorem event_panicking_attempt_not_logged :
    findWebhooks (sampleWorld [hookPlain, hookBadURL, hookFailing]) "posts" =
        .ok [hookPlain, hookBadURL, hookFailing] ∧
      (event (sampleWorld [hookPlain, hookBadURL, hookFailing]) "create" "posts"
        (some sampleRecord) noActor).1 = .panicked ∧
      sendCalls (event (sampleWorld [hookPlain, hookBadURL, hookFailing]) "create" "posts"
          (some sampleRecord) noActor).2 =
        [(hookPlain, samplePayload), (hookBadURL, samplePayload)] ∧
      logEntries (event (sampleWorld [hookPlain, hookBadURL, hookFailing]) "create" "posts"
          (some sampleRecord) noActor).2 =
        [{ level := .INFO, msg := "webhook sent",
           attrs := [("action", "create"), ("name", "sink"), ("collection", "posts"),
             ("destination", "http://sink/hook")] }] ∧
      httpRequests (event (sampleWorld [hookPlain, hookBadURL, hookFailing]) "create" "posts"
          (some sampleRecord) noActor).2 =
        [{ Method := "POST", URL := "http://sink/hook",
           Header := [("Content-Type", "application/json")], Body := samplePayload }] := by
  refine ⟨rfl, by decide, by decide, by decide, by decide⟩

/-- The result of `sendWebhook` when the client returns a response. -/
theorem sendWebhook_of_response (W : World R A) (n : Nat) (w : Webhook) (payload : String)
    (req : Request) (resp : Response) (hreq : preparedRequest W w payload = some req)
    (hdo : W.Do n req = .ok resp) :
    (sendWebhook W n w payload).1 =
      if resp.StatusCode < 200 ∨ resp.StatusCode ≥ 300 then
        .err ("failed to send webhook: " ++ resp.Body)
      else .nil := by
  by_cases hs : resp.StatusCode < 200 ∨ resp.StatusCode ≥ 300
  · simp [sendWebhook, hreq, hdo, hs]
  · simp [sendWebhook, hreq, hdo, hs]

/-- The result of `sendWebhook` when the client returns a transport error. -/
theorem sendWebhook_of_transport_error (W : World R A) (n : Nat) (w : Webhook)
    (payload : String) (req : Request) (err : GoError)
    (hreq : preparedRequest W w payload = some req) (hdo : W.Do n req = .error err) :
    (sendWebhook W n w payload).1 = .err err := by
  simp [sendWebhook, hreq, hdo]

/-! ## The claims about `sendWebhook` -/

/-- C6: let `req` be the request `sendWebhook` hands to the HTTP client.  For every response
the client returns, `sendWebhook` returns nil if and only if `200 ≤ StatusCode < 300`; for
every other status code it returns the error `failed to send webhook: ` followed by the whole
response body; and when the client returns a transport error instead, `sendWebhook` returns
that same error. -/
theorem sendWebhook_result_by_status (W : World R A) (n : Nat) (w : Webhook)
    (payload : String) (req : Request) (hreq : preparedRequest W w payload = some req) :
    (∀ resp, W.Do n req = .ok resp →
      (((sendWebhook W n w payload).1 = .nil ↔
          (200 ≤ resp.StatusCode ∧ resp.StatusCode < 300)) ∧
        (¬ (200 ≤ resp.StatusCode ∧ resp.StatusCode < 300) →
          (sendWebhook W n w payload).1 = .err ("failed to send webhook: " ++ resp.Body) ∧
            resp.Body.data <:+ ("failed to send webhook: " ++ resp.Body).data))) ∧
    (∀ err, W.Do n req = .error err → (sendWebhook W n w payload).1 = .err err) := by
  refine ⟨?_, ?_⟩
  · intro resp hdo
    have hval := sendWebhook_of_response W n w payload req resp hreq hdo
    by_cases hs : resp.StatusCode < 200 ∨ resp.StatusCode ≥ 300
    · have hn : ¬ (200 ≤ resp.StatusCode ∧ resp.StatusCode < 300) := by omega
      rw [if_pos hs] at hval
      rw [hval]
      refine ⟨⟨fun h => ?_, fun h => absurd h hn⟩, fun _ => ⟨rfl, ?_⟩⟩
      · cases h
      · exact ⟨"failed to send webhook: ".data, rfl⟩
    · have hy : 200 ≤ resp.StatusCode ∧ resp.StatusCode < 300 := by omega
      rw [if_neg hs] at hval
      rw [hval]
      exact ⟨⟨fun _ => hy, fun _ => rfl⟩, fun h => absurd hy h⟩
  · intro err hdo
    exact sendWebhook_of_transport_error W n w payload req err hreq hdo

/-- C6 at a destination that answers 500 with body `boom`. -/
theorem sendWebhook_result_by_status_witness :
    preparedRequest (sampleWorld []) hookFailing samplePayload =
        some { Method := "POST", URL := "http://sink/fail",
               Header := [("Content-Type", "application/json")], Body := samplePayload } ∧
      (sendWebhook (sampleWorld []) 0 hookFailing samplePayload).1 =
        .err "failed to send webhook: boom" :=
  ⟨rfl,
    (((sendWebhook_result_by_status (sampleWorld []) 0 hookFailing samplePayload
      { Method := "POST", URL := "http://sink/fail",
        Header := [("Content-Type", "application/json")], Body := samplePayload } rfl).1
      { StatusCode := 500, Body := "boom" } rfl).2 (by decide)).1⟩

/-- C8, as amended: for a webhook whose headers string is empty or does not decode into a
`map[string]string` (`json.Unmarshal` reports an error, as for `not-json` or for an object
with a number as value), and whose destination yields a request, `sendWebhook` still makes
its one HTTP call; the request is the POST to the destination with the payload as body and
exactly one header, `Content-Type: application/json`, so no entry of the malformed headers
is on it; and the parse failure is not returned: an accepted delivery returns nil, and an
error that is returned is the transport error or the non-2xx error of this HTTP call. -/
theorem sendWebhook_malformed_headers (W : World R A) (n : Nat) (w : Webhook)
    (payload : String)
    (hbad : w.Headers = "" ∨ ∃ e, W.unmarshalHeaders w.Headers = .error e)
    (hurl : W.parsesURL w.Destination = true) :
    ∃ req : Request,
      req = { Method := "POST", URL := w.Destination,
              Header := [(W.canonicalKey "Content-Type", "application/json")],
              Body := payload } ∧
      (sendWebhook W n w payload).2 = [.http req] ∧
      (∀ resp, W.Do n req = .ok resp → 200 ≤ resp.StatusCode → resp.StatusCode < 300 →
        (sendWebhook W n w payload).1 = .nil) ∧
      (∀ e, (sendWebhook W n w payload).1 = .err e →
        W.Do n req = .error e ∨
          ∃ resp, W.Do n req = .ok resp ∧
            ¬ (200 ≤ resp.StatusCode ∧ resp.StatusCode < 300) ∧
            e = "failed to send webhook: " ++ resp.Body) := by
  have hreq : preparedRequest W w payload =
      some { Method := "POST", URL := w.Destination,
             Header := [(W.canonicalKey "Content-Type", "application/json")],
             Body := payload } := by
    rw [preparedRequest_of_parses W w payload hurl]
    rcases hbad with h | ⟨e, h⟩
    · simp [addCustomHeaders, h, Request.setHeader, Header.Set]
    · by_cases h0 : w.Headers = ""
      · simp [addCustomHeaders, h0, Request.setHeader, Header.Set]
      · simp [addCustomHeaders, h0, h, Request.setHeader, Header.Set]
  refine ⟨_, rfl, (sendWebhook_of_request W n w payload _ hreq).1, ?_, ?_⟩
  · intro resp hdo h1 h2
    have hval := sendWebhook_of_response W n w payload _ resp hreq hdo
    have hs : ¬ (resp.StatusCode < 200 ∨ resp.StatusCode ≥ 300) := by omega
    rw [if_neg hs] at hval
    exact hval
  · intro e he
    cases hdo : W.Do n _ with
    | error err =>
      rw [sendWebhook_of_transport_error W n w payload _ err hreq hdo] at he
      cases he
      exact Or.inl rfl
    | ok resp =>
      right
      have hval := sendWebhook_of_response W n w payload _ resp hreq hdo
      by_cases hs : resp.StatusCode < 200 ∨ resp.StatusCode ≥ 300
      · rw [if_pos hs] at hval
        rw [hval] at he
        cases he
        exact ⟨resp, rfl, by omega, rfl⟩
      · rw [if_neg hs] at hval
        rw [hval] at he
        cases he

/-- C8 as amended, at the headers string `not-json`. -/
theorem sendWebhook_malformed_headers_witness :
    (hookNotJson.Headers = "" ∨
        ∃ e, (sampleWorld []).unmarshalHeaders hookNotJson.Headers = .error e) ∧
      (sampleWorld []).parsesURL hookNotJson.Destination = true ∧
      ∃ req : Request,
        req = { Method := "POST", URL := hookNotJson.Destination,
                Header := [((sampleWorld []).canonicalKey "Content-Type", "application/json")],
                Body := samplePayload } ∧
        (sendWebhook (sampleWorld []) 0 hookNotJson samplePayload).2 = [.http req] ∧
        (∀ resp, (sampleWorld []).Do 0 req = .ok resp → 200 ≤ resp.StatusCode →
          resp.StatusCode < 300 →
          (sendWebhook (sampleWorld []) 0 hookNotJson samplePayload).1 = .nil) ∧
        (∀ e, (sendWebhook (sampleWorld []) 0 hookNotJson samplePayload).1 = .err e →
          (sampleWorld []).Do 0 req = .error e ∨
            ∃ resp, (sampleWorld []).Do 0 req = .ok resp ∧
              ¬ (200 ≤ resp.StatusCode ∧ resp.StatusCode < 300) ∧
              e = "failed to send webhook: " ++ resp.Body) :=
  ⟨Or.inr ⟨_, rfl⟩, rfl,
    sendWebhook_malformed_headers (sampleWorld []) 0 hookNotJson samplePayload
      (Or.inr ⟨_, rfl⟩) rfl⟩

/-- C8 as stated fails on an object with a null value: the headers string is not a JSON
object of string to string, yet `json.Unmarshal` decodes it without error (a null leaves
the empty string in the map), so the entry is applied and the request carries two headers,
`Content-Type: application/json` and `A` with the empty value. -/
theorem sendWebhook_null_header_value :
    hookNullValue.Headers = "\x7b\"a\":null\x7d" ∧
      (sampleWorld []).unmarshalHeaders hookNullValue.Headers = .ok [("a", "")] ∧
      sendWebhook (sampleWorld []) 0 hookNullValue samplePayload =
        (.nil, [.http { Method := "POST", URL := "http://sink/hook",
                        Header := [("Content-Type", "application/json"), ("A", "")],
                        Body := samplePayload }]) ∧
      (∀ req ∈ httpRequests (sendWebhook (sampleWorld []) 0 hookNullValue samplePayload).2,
        req.Header ≠ [("Content-Type", "application/json")] ∧ ("A", "") ∈ req.Header) := by
  refine ⟨rfl, rfl, by decide, by decide⟩

/-- C10, evaluated at a destination that `url.Parse` rejects: `sendWebhook` neither returns
nil nor an error, it panics on the nil request before any HTTP call; and in `event` the
panic ends the loop, so the webhook stored after the bad one is never attempted and nothing
is logged. -/
theorem sendWebhook_bad_destination_panics :
    (sampleWorld []).parsesURL hookBadURL.Destination = false ∧
      preparedRequest (sampleWorld []) hookBadURL samplePayload = none ∧
      sendWebhook (sampleWorld []) 0 hookBadURL samplePayload = (.panicked, []) ∧
      event (sampleWorld [hookBadURL, hookPlain]) "create" "posts" (some sampleRecord)
          noActor =
        (.panicked, [.query "posts", .marshal, .send hookBadURL samplePayload]) := by
  refine ⟨rfl, rfl, rfl, ?_⟩
  decide

/-! ## Custom headers -/

/-- Membership after `Header.Set`: the old entries under other keys, and the new one. -/
theorem Header.mem_Set (canon : String → String) (h : Header) (key value k v : String) :
    (k, v) ∈ Header.Set canon h key value ↔
      ((k, v) ∈ h ∧ k ≠ canon key) ∨ (k = canon key ∧ v = value) := by
  simp [Header.Set, List.mem_filter]

/-- After `Header.Set` no key occurs twice, if none did before. -/
theorem Header.nodup_Set (canon : String → String) (h : Header) (key value : String)
    (hn : (h.map Prod.fst).Nodup) : ((Header.Set canon h key value).map Prod.fst).Nodup := by
  simp only [Header.Set, List.map_append, List.map_cons, List.map_nil]
  rw [List.nodup_append]
  refine ⟨?_, List.nodup_singleton _, ?_⟩
  · exact (List.filter_sublist _).map Prod.fst |>.nodup hn
  · intro k hk hk2
    simp only [List.mem_singleton] at hk2
    subst hk2
    simp [List.mem_filter] at hk

/-- The loop `for key, value := range headers` changes the header map only. -/
theorem foldl_setHeader (canon : String → String) (hs : List (String × String)) :
    ∀ req : Request,
      hs.foldl (fun r e => r.setHeader canon e.1 e.2) req =
        { req with Header := hs.foldl (fun h e => Header.Set canon h e.1 e.2) req.Header } := by
  induction hs with
  | nil => intro req; rfl
  | cons e rest ih =>
    intro req
    rw [List.foldl_cons, ih]
    rfl

/-- A header survives the loop when no entry has its key as canonical form. -/
theorem foldl_Set_keeps (canon : String → String) (k0 v0 : String) :
    ∀ (l : List (String × String)) (h : Header), (k0, v0) ∈ h →
      (∀ e ∈ l, canon e.1 ≠ k0) →
      (k0, v0) ∈ l.foldl (fun h e => Header.Set canon h e.1 e.2) h := by
  intro l
  induction l with
  | nil => intro h hm _; exact hm
  | cons e rest ih =>
    intro h hm hk
    rw [List.foldl_cons]
    apply ih
    · rw [Header.mem_Set]
      exact Or.inl ⟨hm, fun heq => hk e (List.mem_cons_self _ _) heq.symm⟩
    · exact fun x hx => hk x (List.mem_cons_of_mem _ hx)

/-- The loop keeps the keys of the header map pairwise distinct. -/
theorem foldl_Set_nodup (canon : String → String) :
    ∀ (l : List (String × String)) (h : Header), (h.map Prod.fst).Nodup →
      ((l.foldl (fun h e => Header.Set canon h e.1 e.2) h).map Prod.fst).Nodup := by
  intro l
  induction l with
  | nil => intro h hn; exact hn
  | cons e rest ih =>
    intro h hn
    rw [List.foldl_cons]
    exact ih _ (Header.nodup_Set canon h e.1 e.2 hn)

/-- Every header after the loop was there before or comes from an entry. -/
theorem foldl_Set_origin (canon : String → String) (k v : String) :
    ∀ (l : List (String × String)) (h : Header),
      (k, v) ∈ l.foldl (fun h e => Header.Set canon h e.1 e.2) h →
      (k, v) ∈ h ∨ ∃ e ∈ l, k = canon e.1 ∧ v = e.2 := by
  intro l
  induction l with
  | nil => intro h hm; exact Or.inl hm
  | cons e rest ih =>
    intro h hm
    rw [List.foldl_cons] at hm
    rcases ih _ hm with h1 | ⟨x, hx, hk⟩
    · rw [Header.mem_Set] at h1
      rcases h1 with ⟨h2, _⟩ | ⟨h2, h3⟩
      · exact Or.inl h2
      · exact Or.inr ⟨e, List.mem_cons_self _ _, h2, h3⟩
    · exact Or.inr ⟨x, List.mem_cons_of_mem _ hx, hk⟩

/-- C7, as amended: for a webhook whose non-empty headers string decodes into the entries
`hs` (in the order the loop visits them) and whose destination yields a request,
`sendWebhook` makes one HTTP call with a POST to the destination carrying the payload, and
on that request: an entry `(k, v)` is carried as the header named by the canonical form of
`k` with value `v` whenever no entry visited after it has a key of the same canonical form;
`Content-Type: application/json` is carried whenever no entry has a key whose canonical form
is that of `Content-Type`; no header name occurs twice, so an entry applied under the name
of an earlier header (the default one included) replaces it; and there is no header other
than the default one and those of the entries. -/
theorem sendWebhook_custom_headers (W : World R A) (n : Nat) (w : Webhook) (payload : String)
    (hs : List (String × String)) (hne : w.Headers ≠ "")
    (hdec : W.unmarshalHeaders w.Headers = .ok hs)
    (hurl : W.parsesURL w.Destination = true) :
    ∃ req : Request,
      (sendWebhook W n w payload).2 = [.http req] ∧
      req.Method = "POST" ∧ req.URL = w.Destination ∧ req.Body = payload ∧
      (∀ l1 k v l2, hs = l1 ++ (k, v) :: l2 →
        (∀ e ∈ l2, W.canonicalKey e.1 ≠ W.canonicalKey k) →
        (W.canonicalKey k, v) ∈ req.Header) ∧
      ((∀ e ∈ hs, W.canonicalKey e.1 ≠ W.canonicalKey "Content-Type") →
        (W.canonicalKey "Content-Type", "application/json") ∈ req.Header) ∧
      (req.Header.map Prod.fst).Nodup ∧
      (∀ k v, (k, v) ∈ req.Header →
        (k = W.canonicalKey "Content-Type" ∧ v = "application/json") ∨
          ∃ e ∈ hs, k = W.canonicalKey e.1 ∧ v = e.2) := by
  have hreq : preparedRequest W w payload =
      some { Method := "POST", URL := w.Destination,
             Header := hs.foldl (fun h e => Header.Set W.canonicalKey h e.1 e.2)
               [(W.canonicalKey "Content-Type", "application/json")],
             Body := payload } := by
    have hcond : (w.Headers != "") = true := by simpa using hne
    rw [preparedRequest_of_parses W w payload hurl]
    unfold addCustomHeaders
    rw [if_pos hcond, hdec]
    dsimp only
    rw [foldl_setHeader]
    rfl
  refine ⟨_, (sendWebhook_of_request W n w payload _ hreq).1, rfl, rfl, rfl, ?_, ?_, ?_, ?_⟩
  · intro l1 k v l2 hsplit hlast
    subst hsplit
    show (W.canonicalKey k, v) ∈ List.foldl _ _ (l1 ++ (k, v) :: l2)
    rw [List.foldl_append, List.foldl_cons]
    apply foldl_Set_keeps W.canonicalKey _ _ l2 _ _ hlast
    rw [Header.mem_Set]
    exact Or.inr ⟨rfl, rfl⟩
  · intro hct
    exact foldl_Set_keeps W.canonicalKey _ _ hs _ (List.mem_singleton.mpr rfl) hct
  · exact foldl_Set_nodup W.canonicalKey hs _ (by simp)
  · intro k v hm
    rcases foldl_Set_origin W.canonicalKey k v hs _ hm with h1 | h2
    · left
      simpa using h1
    · exact Or.inr h2

/-- C7 as amended, at the headers `X-Token: abc`: the request carries that header and the
default one. -/
theorem sendWebhook_custom_headers_witness :
    hookToken.Headers ≠ "" ∧
      (sampleWorld []).unmarshalHeaders hookToken.Headers = .ok [("X-Token", "abc")] ∧
      (sampleWorld []).parsesURL hookToken.Destination = true ∧
      ∃ req : Request,
        (sendWebhook (sampleWorld []) 0 hookToken samplePayload).2 = [.http req] ∧
        ("X-Token", "abc") ∈ req.Header ∧
        ("Content-Type", "application/json") ∈ req.Header :=
  ⟨by decide, rfl, rfl,
    (sendWebhook_custom_headers (sampleWorld []) 0 hookToken samplePayload
      [("X-Token", "abc")] (by decide) rfl rfl).elim
      fun req h => ⟨req, h.1, h.2.2.2.2.1 [] "X-Token" "abc" [] rfl (by simp),
        h.2.2.2.2.2.1 (by decide)⟩⟩

/-- C7 as stated fails when two keys of the decoded object have the same canonical form:
the object has the entries `x-a: 1` and `X-A: 2`, and the request that is sent carries the
default header and `X-A: 2` only, no header of it has the value `1`; when the loop visits
the two entries in the opposite order it is `X-A: 1` that is carried and the value `2` that
is on no header. -/
theorem sendWebhook_colliding_header_keys :
    (sampleWorld []).unmarshalHeaders hookCollide.Headers = .ok [("x-a", "1"), ("X-A", "2")] ∧
      httpRequests (sendWebhook (sampleWorld []) 0 hookCollide samplePayload).2 =
        [{ Method := "POST", URL := "http://sink/hook",
           Header := [("Content-Type", "application/json"), ("X-A", "2")],
           Body := samplePayload }] ∧
      (∀ req ∈ httpRequests (sendWebhook (sampleWorld []) 0 hookCollide samplePayload).2,
        ∀ kv ∈ req.Header, kv.2 ≠ "1") ∧
      (reversedWorld []).unmarshalHeaders hookCollide.Headers =
        .ok [("X-A", "2"), ("x-a", "1")] ∧
      httpRequests (sendWebhook (reversedWorld []) 0 hookCollide samplePayload).2 =
        [{ Method := "POST", URL := "http://sink/hook",
           Header := [("Content-Type", "application/json"), ("X-A", "1")],
           Body := samplePayload }] ∧
      (∀ req ∈ httpRequests (sendWebhook (reversedWorld []) 0 hookCollide samplePayload).2,
        ∀ kv ∈ req.Header, kv.2 ≠ "2") := by
  refine ⟨rfl, by decide, by decide, rfl, by decide, by decide⟩

/-! ## The payload -/

/-- The auth pointer is non-nil exactly when the context holds a non-nil `*models.Record`
under the auth key. -/
theorem authOf_isSome_iff (W : World R A) (ctx : Context R A) :
    (∃ r, authOf W ctx = some r) ↔ ∃ r, ctx.Get W.authKey = .recordPtr (some r) := by
  unfold authOf
  cases h : ctx.Get W.authKey with
  | recordPtr r => cases r <;> simp
  | unset => simp
  | adminPtr a => simp
  | other t => simp

/-- The admin pointer is non-nil exactly when the context holds a non-nil `*models.Admin`
under the admin key. -/
theorem adminOf_isSome_iff (W : World R A) (ctx : Context R A) :
    (∃ a, adminOf W ctx = some a) ↔ ∃ a, ctx.Get W.adminKey = .adminPtr (some a) := by
  unfold adminOf
  cases h : ctx.Get W.adminKey with
  | adminPtr a => cases a <;> simp
  | unset => simp
  | recordPtr r => simp
  | other t => simp

/-- An `omitempty` pointer field contributes its one member exactly when it is non-nil. -/
theorem omitEmpty_ok {α : Type} (key : String) (enc : α → Except GoError String)
    (o : Option α) (l : List (String × String)) (h : omitEmpty key enc o = .ok l) :
    (o = none ∧ l = []) ∨ ∃ a v, o = some a ∧ l = [(key, v)] := by
  cases o with
  | none =>
    simp only [omitEmpty] at h
    cases h
    exact Or.inl ⟨rfl, rfl⟩
  | some a =>
    simp only [omitEmpty] at h
    cases he : enc a with
    | error e => rw [he] at h; cases h
    | ok v =>
      rw [he] at h
      cases h
      exact Or.inr ⟨a, v, rfl, rfl⟩

/-- The members of a serialised payload: the three fixed ones, then `auth` and `admin`
according to the pointers. -/
theorem payloadFields_keys (W : World R A) (p : Payload R A) (fields : List (String × String))
    (h : payloadFields W p = .ok fields) :
    ∃ la lb, fields.map Prod.fst = ["action", "collection", "record"] ++ la ++ lb ∧
      ((p.Auth = none ∧ la = []) ∨ ((∃ r, p.Auth = some r) ∧ la = ["auth"])) ∧
      ((p.Admin = none ∧ lb = []) ∨ ((∃ a, p.Admin = some a) ∧ lb = ["admin"])) := by
  unfold payloadFields at h
  cases h1 : encodeRecordPtr W p.Record with
  | error e => rw [h1] at h; cases h
  | ok rec =>
    cases h2 : omitEmpty "auth" W.jsonRecord p.Auth with
    | error e => rw [h1, h2] at h; cases h
    | ok auth =>
      cases h3 : omitEmpty "admin" W.jsonAdmin p.Admin with
      | error e => rw [h1, h2, h3] at h; cases h
      | ok admin =>
        rw [h1, h2, h3] at h
        cases h
        refine ⟨auth.map Prod.fst, admin.map Prod.fst, by simp, ?_, ?_⟩
        · rcases omitEmpty_ok _ _ _ _ h2 with ⟨ha, hl⟩ | ⟨a, v, ha, hl⟩
          · exact Or.inl ⟨ha, by rw [hl]; rfl⟩
          · exact Or.inr ⟨⟨a, ha⟩, by rw [hl]; rfl⟩
        · rcases omitEmpty_ok _ _ _ _ h3 with ⟨ha, hl⟩ | ⟨a, v, ha, hl⟩
          · exact Or.inl ⟨ha, by rw [hl]; rfl⟩
          · exact Or.inr ⟨⟨a, ha⟩, by rw [hl]; rfl⟩

/-- C4: when the payload of an event serialises to the members `fields`, these always
include `action`, `collection` and `record`; `auth` is among them if and only if the actor
was an end-user, that is the request context holds an auth record (a non-nil
`*models.Record` under the auth key); `admin` is among them if and only if the actor was an
administrator, that is the context holds an admin (a non-nil `*models.Admin` under the admin
key); and the payload never has both, the actor of a request being an end-user or an
administrator and not both.  The bytes passed to every `sendWebhook` call of the event are
the JSON object of these members. -/
theorem event_payload_fields (W : World R A) (action collection : String)
    (record : Option R) (ctx : Context R A) (fields : List (String × String))
    (h : payloadFields W (buildPayload W action collection record ctx) = .ok fields) :
    "action" ∈ fields.map Prod.fst ∧ "collection" ∈ fields.map Prod.fst ∧
      "record" ∈ fields.map Prod.fst ∧
      ("auth" ∈ fields.map Prod.fst ↔ ∃ r, ctx.Get W.authKey = .recordPtr (some r)) ∧
      ("admin" ∈ fields.map Prod.fst ↔ ∃ a, ctx.Get W.adminKey = .adminPtr (some a)) ∧
      (¬ ((∃ r, ctx.Get W.authKey = .recordPtr (some r)) ∧
          ∃ a, ctx.Get W.adminKey = .adminPtr (some a)) →
        ¬ ("auth" ∈ fields.map Prod.fst ∧ "admin" ∈ fields.map Prod.fst)) ∧
      (∀ x ∈ sendCalls (event W action collection record ctx).2,
        x.2 = renderObject fields) := by
  obtain ⟨la, lb, hkeys, hauth, hadmin⟩ := payloadFields_keys W _ fields h
  have hA : "auth" ∈ fields.map Prod.fst ↔ ∃ r, ctx.Get W.authKey = .recordPtr (some r) := by
    rw [← authOf_isSome_iff, hkeys]
    have hb : "auth" ∉ lb := by
      rcases hadmin with ⟨_, hl⟩ | ⟨_, hl⟩ <;> rw [hl] <;> decide
    rcases hauth with ⟨hn, hl⟩ | ⟨hs, hl⟩
    · have hn2 : authOf W ctx = none := hn
      subst hl
      simp [hn2, hb]
    · have hs2 : ∃ r, authOf W ctx = some r := hs
      subst hl
      simp [hs2]
  have hB : "admin" ∈ fields.map Prod.fst ↔ ∃ a, ctx.Get W.adminKey = .adminPtr (some a) := by
    rw [← adminOf_isSome_iff, hkeys]
    have ha : "admin" ∉ la := by
      rcases hauth with ⟨_, hl⟩ | ⟨_, hl⟩ <;> rw [hl] <;> decide
    rcases hadmin with ⟨hn, hl⟩ | ⟨hs, hl⟩
    · have hn2 : adminOf W ctx = none := hn
      subst hl
      simp [hn2, ha]
    · have hs2 : ∃ a, adminOf W ctx = some a := hs
      subst hl
      simp [hs2]
  refine ⟨by simp [hkeys], by simp [hkeys], by simp [hkeys], hA, hB, ?_, ?_⟩
  · intro hone hboth
    exact hone ⟨hA.mp hboth.1, hB.mp hboth.2⟩
  have hm : jsonMarshal W (buildPayload W action collection record ctx) =
      .ok (renderObject fields) := by
    simp [jsonMarshal, h]
  intro x hx
  cases hf : findWebhooks W collection with
  | error e =>
    rw [event_of_lookup_error W action collection record ctx e hf] at hx
    simp [sendCalls] at hx
  | ok ws =>
    by_cases hne : ws = []
    · subst hne
      rw [event_of_empty W action collection record ctx hf] at hx
      simp [sendCalls] at hx
    · rw [event_of_payload W action collection record ctx ws _ hf hne hm] at hx
      have hx2 : x ∈ sendCalls (deliver W action (renderObject fields) 0 ws).2 := by
        simpa [sendCalls] using hx
      exact (deliver_sendCalls_mem W action _ ws 0 x hx2).2

/-- C4 at an event of an end-user: the context holds an auth record and no admin, the
payload has `auth` next to the three fixed members, and it does not have both `auth` and
`admin`. -/
theorem event_payload_fields_witness :
    payloadFields (sampleWorld []) (buildPayload (sampleWorld []) "create" "posts"
        (some sampleRecord) userActor) =
        .ok [("action", "\"create\""), ("collection", "\"posts\""),
          ("record", sampleRecord), ("auth", "\x7b\"id\":\"u1\"\x7d")] ∧
      ¬ ((∃ r, userActor.Get (sampleWorld []).authKey = .recordPtr (some r)) ∧
          ∃ a, userActor.Get (sampleWorld []).adminKey = .adminPtr (some a)) ∧
      ¬ ("auth" ∈ [("action", "\"create\""), ("collection", "\"posts\""),
            ("record", sampleRecord), ("auth", "\x7b\"id\":\"u1\"\x7d")].map Prod.fst ∧
          "admin" ∈ [("action", "\"create\""), ("collection", "\"posts\""),
            ("record", sampleRecord), ("auth", "\x7b\"id\":\"u1\"\x7d")].map Prod.fst) :=
  have hone : ¬ ((∃ r, userActor.Get (sampleWorld []).authKey = .recordPtr (some r)) ∧
      ∃ a, userActor.Get (sampleWorld []).adminKey = .adminPtr (some a)) :=
    fun ⟨_, ⟨_, ha⟩⟩ => by
      have hget : userActor.Get (sampleWorld []).adminKey = .unset := rfl
      rw [hget] at ha
      cases ha
  ⟨rfl, hone,
    (event_payload_fields (sampleWorld []) "create" "posts" (some sampleRecord) userActor
      _ rfl).2.2.2.2.2.1 hone⟩

end Webhooks
